import Mathlib

/-!
# KSight informer core — verification development

A shallow embedding of the informer core of KSight (`pkg/informer`):
the Sensitivity Redactor, the Durable Resource Cache (`DatabaseCache`),
the `ResourceVersionStore`, and the `InformerManager` event path
(`handleEvent`, `AddResourceWatcher`, `GetResourceWithSensitivityInfo`,
`GetOriginalResource`), together with proofs of the specification claims
about them.

Modelling conventions:
* Go `map[string]T` values are modelled as association lists
  (`List (String × T)`); Go map iteration order is not observable in any
  property proved here.
* Kubernetes `unstructured.Unstructured` objects are modelled as a `Json`
  tree; Go's `json.Marshal`/`json.Unmarshal` round-trip of such a tree is
  the identity, so serialized blobs are carried as `Json` values.
* Stateful Go code is modelled by explicit state passing: a function that
  mutates receiver state returns the new state, and the value of the
  caller-owned argument after the call is returned where a claim is about
  frame effects.
* Network and file I/O results are injected as parameters
  (pre-flight List outcome, API-server Get outcome, file contents).
-/

namespace KSight

/-! ## Go `strings` helpers

`strings.HasPrefix`, `strings.Contains`, `strings.Split` and
`strings.TrimPrefix`, modelled over `List Char` with structural recursion
so that applications to concrete strings reduce in the kernel.
-/

/-- Go `strings.HasPrefix` on character lists. -/
def pfxAt : List Char → List Char → Bool
  | [], _ => true
  | _ :: _, [] => false
  | p :: ps, c :: cs => p == c && pfxAt ps cs

/-- Go `strings.Contains` on character lists: `pat` occurs somewhere in the
second argument. -/
def containsSub (pat : List Char) : List Char → Bool
  | [] => pfxAt pat []
  | c :: cs => pfxAt pat (c :: cs) || containsSub pat cs

/-- Go `strings.Contains`. -/
def strContains (s pat : String) : Bool :=
  containsSub pat.data s.data

/-- Worker for `strSplitOn`.  The fuel argument makes the recursion
structural (hence kernel-reducible); `fuel = cs.length + 1` always
suffices for a non-empty separator. -/
def splitFuel (sep : List Char) : Nat → List Char → List Char → List (List Char)
  | 0, cs, acc => [acc.reverse ++ cs]
  | _ + 1, [], acc => [acc.reverse]
  | fuel + 1, c :: cs, acc =>
    if pfxAt sep (c :: cs) then
      acc.reverse :: splitFuel sep fuel ((c :: cs).drop sep.length) []
    else
      splitFuel sep fuel cs (c :: acc)

/-- Go `strings.Split` (for a non-empty separator): split at every
non-overlapping occurrence, scanning left to right. -/
def strSplitOn (s sep : String) : List String :=
  (splitFuel sep.data (s.data.length + 1) s.data []).map String.mk

/-- Go `strings.TrimPrefix`. -/
def trimPfx (s pre : String) : String :=
  if pfxAt pre.data s.data then String.mk (s.data.drop pre.data.length) else s

/-! ## JSON object model

The tree shape of an `unstructured.Unstructured` object
(`map[string]any` over JSON-decoded values). -/

inductive Json where
  | null
  | bool (b : Bool)
  | num (n : Int)
  | str (s : String)
  | arr (elems : List Json)
  | obj (fields : List (String × Json))

instance : Inhabited Json := ⟨Json.null⟩

/-- Association-list lookup (Go map read). -/
def alookup {α : Type} : List (String × α) → String → Option α
  | [], _ => none
  | (k', v) :: rest, k => if k' = k then some v else alookup rest k

/-- Association-list update (Go map write): replace in place, else append. -/
def setEntry {α : Type} : List (String × α) → String → α → List (String × α)
  | [], k, v => [(k, v)]
  | (k', v') :: rest, k, v =>
    if k' = k then (k, v) :: rest else (k', v') :: setEntry rest k v

/-- Field read on a JSON object. -/
def Json.getField : Json → String → Option Json
  | .obj fs, k => alookup fs k
  | _, _ => none

/-- Navigation along a key path (apimachinery `NestedFieldNoCopy`). -/
def Json.getPath : Json → List String → Option Json
  | j, [] => some j
  | j, k :: rest =>
    match j.getField k with
    | some v => Json.getPath v rest
    | none => none

/-- apimachinery `NestedString`: `""` when the path is missing or the value
is not a string. -/
def getStringAt (j : Json) (path : List String) : String :=
  match j.getPath path with
  | some (.str s) => s
  | _ => ""

/-! ## Sensitivity policy -/

/-- `SensitiveResourceConfig.Resources`: map of `group + "/" + Kind` keys to
field-path lists. -/
abbrev SensitiveResources := List (String × List String)

/-- `DefaultSensitiveConfig` from `pkg/informer`. -/
def DefaultSensitiveConfig : SensitiveResources :=
  [ ("/Secret", ["data", "stringData"]),
    ("external-secrets.io/SecretStore", ["spec.provider", "spec.auth"]),
    ("external-secrets.io/ClusterSecretStore", ["spec.provider", "spec.auth"]),
    ("bitnami.com/SealedSecret", ["spec.encryptedData"]),
    ("cert-manager.io/Certificate", ["spec.privateKey", "spec.keystores"]) ]

/-- `schema.GroupVersionResource`. -/
structure GVR where
  group : String
  version : String
  resource : String

/-- `GroupVersionResource.String()`:
`group + "/" + version + ", Resource=" + resource`. -/
def gvrString (g : GVR) : String :=
  g.group ++ "/" ++ g.version ++ ", Resource=" ++ g.resource

/-- `Unstructured.GetKind`. -/
def getKind (j : Json) : String := getStringAt j ["kind"]

/-- The `Group` of `schema.FromAPIVersionAndKind`: `apiVersion` with one
slash splits into group and version; a bare version (or a parse failure)
yields the empty group. -/
def apiVersionGroup (apiVersion : String) : String :=
  match strSplitOn apiVersion "/" with
  | [g, _] => g
  | _ => ""

/-- `DatabaseCache.isSensitiveResource`: the key is built from the GVR
group and the object's kind. -/
def isSensitiveResource (cfg : SensitiveResources) (gvr : GVR) (resource : Json) : Bool :=
  (alookup cfg (gvr.group ++ "/" ++ getKind resource)).isSome

/-! ## `sjson.Set` model

`DatabaseCache.redactFieldPath` marshals the object to JSON and applies
`sjson.Set(json, fieldPath, "<redacted>")`.  For a dotted path of plain
(non-numeric, wildcard-free) keys, `sjson.Set`:
* overwrites an existing terminal key;
* creates the remaining chain of objects when a key is missing;
* replaces a scalar intermediate by a fresh object holding the chain;
* fails with an error on an array intermediate (non-numeric key). -/

/-- A nested chain of one-field objects ending in `v`. -/
def mkChain : List String → Json → Json
  | [], v => v
  | k :: rest, v => .obj [(k, mkChain rest v)]

/-- `sjson.Set` for an already-split dotted path of plain keys;
`none` models the library returning an error. -/
def sjsonSet : List String → Json → Json → Option Json
  | [], _, v => some v
  | k :: rest, .obj fs, v =>
    match alookup fs k with
    | some w =>
      match rest with
      | [] => some (.obj (setEntry fs k v))
      | _ :: _ =>
        match sjsonSet rest w v with
        | some w' => some (.obj (setEntry fs k w'))
        | none => none
    | none => some (.obj (setEntry fs k (mkChain rest v)))
  | _ :: _, .arr _, _ => none
  | k :: rest, _, v => some (mkChain (k :: rest) v)

/-! ## Redaction (`DatabaseCache`) -/

/-- The redaction literal. -/
def redactedLit : Json := .str "<redacted>"

/-- The wildcard-free branch of `DatabaseCache.redactFieldPath`:
marshal, `sjson.Set`, unmarshal, and copy the resulting fields back over
the object; a failing `sjson.Set` leaves the object untouched. -/
def redactFieldPathPlain (obj : Json) (fieldPath : String) : Json :=
  match sjsonSet (strSplitOn fieldPath ".") obj redactedLit with
  | some r => r
  | none => obj

/-- `DatabaseCache.redactArrayElements`.  The Go code calls back into
`redactFieldPath`; since the remainder of a two-part `[*]` split never
contains `[*]`, that call always takes the plain branch, which is what is
inlined here. -/
def redactArrayElements (arrayField : Json) (remainderPath : String) : Json :=
  match arrayField with
  | .arr elems =>
    .arr (elems.map fun e =>
      match e with
      | .obj fs =>
        if remainderPath = "" then
          .obj (fs.map fun kv => (kv.1, redactedLit))
        else
          redactFieldPathPlain (.obj fs) remainderPath
      | other => other)
  | other => other

/-- The prefix-navigation loop of `DatabaseCache.redactArrayFieldPath`:
every non-empty segment must name an existing field holding an object
(the type assertion `next.(map[string]any)`), otherwise the function
returns without touching the object. -/
def navMaps : Json → List String → Option Json
  | j, [] => some j
  | j, p :: rest =>
    if p = "" then navMaps j rest
    else
      match j with
      | .obj fs =>
        match alookup fs p with
        | some (.obj gs) => navMaps (.obj gs) rest
        | some _ => none
        | none => none
      | _ => none

/-- The nested second phase of `redactArrayFieldPath`: walk `parentPath`
(skipping empty segments, asserting objects), then rewrite the value of
`last` if present.  Go mutates the value in place; the rewrite is applied
at the navigated location. -/
def modifyNested : Json → List String → String → (Json → Json) → Json
  | j, [], last, f =>
    match j with
    | .obj fs =>
      match alookup fs last with
      | some v => .obj (setEntry fs last (f v))
      | none => .obj fs
    | other => other
  | j, p :: rest, last, f =>
    if p = "" then modifyNested j rest last f
    else
      match j with
      | .obj fs =>
        match alookup fs p with
        | some (.obj gs) => .obj (setEntry fs p (modifyNested (.obj gs) rest last f))
        | _ => .obj fs
      | other => other

/-- `DatabaseCache.redactArrayFieldPath`.  `lastPart` and `parentPath` are
computed in Go with `strings.LastIndex(arrayPath, ".")`; splitting
`arrayPath` at every dot, `lastPart` is the final segment and the
`parentPath` walk visits exactly the preceding segments (segments contain
no dot), and `arrayPath == lastPart` holds exactly when there is no dot. -/
def redactArrayFieldPath (obj : Json) (fieldPath : String) : Json :=
  match strSplitOn fieldPath "[*]" with
  | [arrayPath, rawRemainder] =>
    let remainderPath := trimPfx rawRemainder "."
    match navMaps obj (strSplitOn arrayPath ".") with
    | none => obj
    | some _ =>
      match strSplitOn arrayPath "." with
      | [] => obj
      | [lastPart] =>
        match obj with
        | .obj fs =>
          match alookup fs lastPart with
          | some v => .obj (setEntry fs lastPart (redactArrayElements v remainderPath))
          | none => .obj fs
        | other => other
      | s₀ :: s₁ :: rest =>
        modifyNested obj ((s₀ :: s₁ :: rest).dropLast)
          ((s₀ :: s₁ :: rest).getLastD "")
          (fun v => redactArrayElements v remainderPath)
  | _ => obj

/-- `DatabaseCache.redactFieldPath`: dispatch on the `[*]` wildcard. -/
def redactFieldPath (obj : Json) (fieldPath : String) : Json :=
  if strContains fieldPath "[*]" then redactArrayFieldPath obj fieldPath
  else redactFieldPathPlain obj fieldPath

/-- `DatabaseCache.redactSensitiveFields`: deep-copy the resource (the
model is pure, so the copy is implicit), key the policy on the group of
`apiVersion` plus the kind, and fold the configured field paths. -/
def redactSensitiveFields (cfg : SensitiveResources) (resource : Json) : Json :=
  match alookup cfg (apiVersionGroup (getStringAt resource ["apiVersion"]) ++ "/" ++ getKind resource) with
  | none => resource
  | some fieldPaths => fieldPaths.foldl (fun acc p => redactFieldPath acc p) resource

/-! ## Durable resource cache (`DatabaseCache` rows) -/

/-- The annotation stripped (per the comment in `StoreResource`) before
caching. -/
def lastAppliedKey : String := "kubectl.kubernetes.io/last-applied-configuration"

/-- `Unstructured.GetAnnotations`, i.e. apimachinery `NestedStringMap` at
`metadata.annotations`: a *fresh copy* of the string map, or `nil` when it
is missing or holds a non-string value. -/
def getAnnotations (j : Json) : Option (List (String × String)) :=
  match j.getPath ["metadata", "annotations"] with
  | some (.obj fs) =>
    if fs.all (fun kv => match kv.2 with | .str _ => true | _ => false) then
      some (fs.filterMap fun kv => match kv.2 with | .str s => some (kv.1, s) | _ => none)
    else none
  | _ => none

/-- One row of the `resource_cache` table. -/
structure StoreRow where
  uid : String
  clusterId : String
  gvrStr : String
  ns : String
  name : String
  resourceVersion : String
  data : Json
  isSensitive : Bool

/-- `DatabaseCache.StoreResource`.  The second component of the result is
the caller's `resource` after the call: the Go code deletes the
last-applied annotation from the map returned by `GetAnnotations`, but
apimachinery returns a fresh copy there, so the deletion reaches neither
the caller's object nor the marshalled row; redaction runs on a deep
copy. -/
def storeResource (cfg : SensitiveResources) (clusterId : String) (gvr : GVR)
    (resource : Json) : StoreRow × Json :=
  let _annotations := (getAnnotations resource).map
    (fun m => m.filter fun kv => kv.1 != lastAppliedKey)
  let isSens := isSensitiveResource cfg gvr resource
  let dataToStore := if isSens then redactSensitiveFields cfg resource else resource
  ({ uid := getStringAt resource ["metadata", "uid"],
     clusterId := clusterId,
     gvrStr := gvrString gvr,
     ns := getStringAt resource ["metadata", "namespace"],
     name := getStringAt resource ["metadata", "name"],
     resourceVersion := getStringAt resource ["metadata", "resourceVersion"],
     data := dataToStore,
     isSensitive := isSens }, resource)

/-- The table effect of `INSERT OR REPLACE`: rows conflicting on the `uid`
primary key or on the `UNIQUE(cluster_id, gvr, namespace, name)` tuple are
replaced. -/
def cacheUpsert (table : List StoreRow) (row : StoreRow) : List StoreRow :=
  row :: table.filter (fun r =>
    !(r.uid == row.uid) &&
    !(r.clusterId == row.clusterId && r.gvrStr == row.gvrStr &&
      r.ns == row.ns && r.name == row.name))

/-- `DatabaseCache.GetResource`: point read on the identity tuple;
`none` models `sql.ErrNoRows` being mapped to `(nil, false, nil)`. -/
def getResource (table : List StoreRow) (clusterId gvrStr ns name : String) :
    Option (Json × Bool) :=
  match table.find? (fun r =>
      r.clusterId == clusterId && r.gvrStr == gvrStr && r.ns == ns && r.name == name) with
  | some r => some (r.data, r.isSensitive)
  | none => none

/-! ## `ResourceVersionStore` -/

/-- `clusterID -> GVR-string -> resourceVersion`. -/
abbrev RVSData := List (String × List (String × String))

/-- `ResourceVersionStore.getResourceVersion`: `""` when the cluster or the
GVR is absent (Go map zero value). -/
def rvsGet (d : RVSData) (clusterId gvr : String) : String :=
  match alookup d clusterId with
  | some m => (alookup m gvr).getD ""
  | none => ""

/-- `ResourceVersionStore.setResourceVersion`: create the cluster sub-map
if needed, then overwrite unconditionally. -/
def rvsSet (d : RVSData) (clusterId gvr version : String) : RVSData :=
  setEntry d clusterId (setEntry ((alookup d clusterId).getD []) gvr version)

/-- The file read performed by `ResourceVersionStore.load`, abstracted:
the file is missing (`os.Stat`), unreadable (`os.ReadFile` error), or its
bytes parse (`some j`) or fail JSON syntax validation (`none`;
`json.Unmarshal` validates the whole input before writing anything). -/
inductive FileRead where
  | missing
  | unreadable
  | content (parsed : Option Json)

/-- Decoding one inner map the way `encoding/json` fills a
`map[string]string`: non-string values are skipped (the first such error
is reported, but decoding continues). -/
def decodeInner (j : Json) : Option (List (String × String)) :=
  match j with
  | .obj gs => some (gs.filterMap fun kv =>
      match kv.2 with
      | .str s => some (kv.1, s)
      | _ => none)
  | _ => none

/-- `json.Unmarshal(data, &rvs.data)` into the (empty) store map:
a non-object document is a type error that leaves the map untouched;
object entries whose values are not string maps are skipped. -/
def rvsDecode (parsed : Option Json) : RVSData :=
  match parsed with
  | none => []
  | some (.obj fs) =>
    fs.foldl (fun acc kv =>
      match decodeInner kv.2 with
      | some m => setEntry acc kv.1 m
      | none => acc) []
  | some _ => []

/-- `ResourceVersionStore.load`, starting from the empty map built by
`NewInformerManager`: every file-level failure returns silently with the
store still empty. -/
def rvsLoad (f : FileRead) : RVSData :=
  match f with
  | .missing => []
  | .unreadable => []
  | .content parsed => rvsDecode parsed

/-- The store held by `NewInformerManager` after construction: `load()` is
invoked once and construction cannot fail on its account. -/
def newInformerManagerStore (f : FileRead) : RVSData := rvsLoad f

/-! ## `InformerManager.handleEvent` -/

/-- The `Event` record (the wall-clock `Timestamp` carries no claim and is
omitted from the model). -/
structure Event where
  type : String
  clusterId : String
  gvr : GVR
  ns : String
  name : String
  object : Json
  oldObject : Option Json

/-- Everything `handleEvent` does: the version-store update, the resource
handed (asynchronously) to `DatabaseCache.StoreResource`, and the `Event`
handed to the registered event handler. -/
structure HandleResult where
  store : RVSData
  cacheWrite : Option Json
  event : Event

/-- `InformerManager.handleEvent` for an informer payload that casts to
`*unstructured.Unstructured` (a failed cast drops the event before any of
this; the registered event handler is modelled as present). -/
def handleEvent (cfg : SensitiveResources) (store : RVSData)
    (eventType clusterId : String) (gvr : GVR) (obj : Json) (oldObj : Option Json) :
    HandleResult :=
  let resourceVersion := getStringAt obj ["metadata", "resourceVersion"]
  let store' := if resourceVersion ≠ "" then
      rvsSet store clusterId (gvrString gvr) resourceVersion
    else store
  let cacheWrite := if resourceVersion ≠ "" then some obj else none
  let eventObj := if isSensitiveResource cfg gvr obj then
      redactSensitiveFields cfg obj
    else obj
  { store := store',
    cacheWrite := cacheWrite,
    event :=
      { type := eventType,
        clusterId := clusterId,
        gvr := gvr,
        ns := getStringAt obj ["metadata", "namespace"],
        name := getStringAt obj ["metadata", "name"],
        object := eventObj,
        oldObject := oldObj } }

/-- One informer callback, as handed to `handleEvent`. -/
structure EvIn where
  type : String
  clusterId : String
  gvr : GVR
  obj : Json
  oldObj : Option Json

/-- The version-store effect of one event. -/
def evStep (cfg : SensitiveResources) (st : RVSData) (e : EvIn) : RVSData :=
  (handleEvent cfg st e.type e.clusterId e.gvr e.obj e.oldObj).store

/-- The version store after a finite event stream. -/
def processEvents (cfg : SensitiveResources) (st : RVSData) (events : List EvIn) : RVSData :=
  events.foldl (evStep cfg) st

/-- The resource version of the most recent event for `(c, g)` whose
object carries a non-empty resource version. -/
def lastRV : List EvIn → String → String → Option String
  | [], _, _ => none
  | e :: es, c, g =>
    match lastRV es c g with
    | some v => some v
    | none =>
      if e.clusterId = c ∧ gvrString e.gvr = g ∧
          getStringAt e.obj ["metadata", "resourceVersion"] ≠ "" then
        some (getStringAt e.obj ["metadata", "resourceVersion"])
      else none

/-! ## Manager read paths and `AddResourceWatcher` -/

/-- `InformerManager.GetOriginalResource`: look the cluster up, then issue
a point Get against the API server (`api` injects its response; `none`
is an API error).  The durable cache is never consulted. -/
def getOriginalResource (clusters : List String) (api : Option Json)
    (clusterId : String) : Option Json :=
  if clusterId ∈ clusters then api else none

/-- `InformerManager.GetResourceWithSensitivityInfo` with the database
cache present: cache hit wins; on a miss fall through to
`GetOriginalResource` and redact if the kind is policy-sensitive. -/
def getResourceWithSensitivityInfo (cfg : SensitiveResources)
    (table : List StoreRow) (clusters : List String) (api : Option Json)
    (clusterId : String) (gvr : GVR) (ns name : String) : Option (Json × Bool) :=
  match getResource table clusterId (gvrString gvr) ns name with
  | some (cached, isSens) => some (cached, isSens)
  | none =>
    match getOriginalResource clusters api clusterId with
    | none => none
    | some original =>
      if isSensitiveResource cfg gvr original then
        some (redactSensitiveFields cfg original, true)
      else
        some (original, false)

/-- The per-cluster state touched by `AddResourceWatcher`. -/
structure ClusterState where
  informers : List String
  status : String
  lastError : String

/-- `InformerManager.AddResourceWatcher`, with the pre-flight
`testAPIAccess` outcome injected (`some errMsg` is a failed List call
whose error renders as `errMsg`; `none` is success).  On success the
informer is registered; factory start and cache sync are asynchronous and
carry no claim here. -/
def addResourceWatcher (m : List (String × ClusterState)) (clusterId : String)
    (gvr : GVR) (preflight : Option String) :
    List (String × ClusterState) × Except String Unit :=
  match alookup m clusterId with
  | none => (m, .error ("cluster " ++ clusterId ++ " not found"))
  | some cluster =>
    if gvrString gvr ∈ cluster.informers then
      (m, .ok ())
    else
      match preflight with
      | some errMsg =>
        if strContains errMsg "401" || strContains errMsg "Unauthorized" then
          (setEntry m clusterId
            { cluster with
              status := "error",
              lastError := "Unauthorized access to " ++ gvrString gvr ++ ": " ++ errMsg },
           .error ("unauthorized access to " ++ gvrString gvr ++ " in cluster " ++
             clusterId ++ ": " ++ errMsg))
        else
          (setEntry m clusterId
            { cluster with
              status := "error",
              lastError := "Failed to access " ++ gvrString gvr ++ ": " ++ errMsg },
           .error errMsg)
      | none =>
        (setEntry m clusterId
          { cluster with informers := gvrString gvr :: cluster.informers },
         .ok ())

/-! ## Predicates used to state the claims -/

/-- A plain path segment: non-empty and purely alphabetic, so `gjson`
treats it as a literal key (no wildcard characters, not an array index). -/
def plainSeg (s : String) : Bool :=
  !s.data.isEmpty && s.data.all (fun c => c.isAlpha)

/-- Navigation for `sjson.Set` along `segs` never meets an array before
the final segment: either every intermediate key exists and holds an
object, or the walk ends early at a missing key or a scalar (both of
which `sjson.Set` handles by creating the remaining chain). -/
def noArrayObstacle : List String → Json → Bool
  | [], _ => true
  | _ :: _, .arr _ => false
  | k :: rest, .obj fs =>
    match alookup fs k with
    | some w => noArrayObstacle rest w
    | none => true
  | _ :: _, _ => true

/-! ## Concrete objects used by counterexamples and witnesses -/

def gvrSecrets : GVR := ⟨"", "v1", "secrets"⟩

def gvrConfigmaps : GVR := ⟨"", "v1", "configmaps"⟩

def gvrPods : GVR := ⟨"", "v1", "pods"⟩

/-- A pod-like object whose `spec.containers` is an array of objects. -/
def podWithContainers : Json :=
  .obj [("spec", .obj [("containers",
    .arr [.obj [("name", .str "c0"), ("env", .str "token123")]])])]

/-- The prior version of a Secret, as carried by a MODIFIED callback. -/
def secretOld : Json :=
  .obj [("apiVersion", .str "v1"), ("kind", .str "Secret"),
        ("metadata", .obj [("name", .str "db-credentials"),
                           ("namespace", .str "default"),
                           ("resourceVersion", .str "100"),
                           ("uid", .str "u-1")]),
        ("data", .obj [("password", .str "b2xkcGFzcw==")])]

/-- The current version of the same Secret. -/
def secretNew : Json :=
  .obj [("apiVersion", .str "v1"), ("kind", .str "Secret"),
        ("metadata", .obj [("name", .str "db-credentials"),
                           ("namespace", .str "default"),
                           ("resourceVersion", .str "101"),
                           ("uid", .str "u-1")]),
        ("data", .obj [("password", .str "bmV3cGFzcw==")])]

/-- An object with no `data` field, for the missing-intermediate path. -/
def bareSecret : Json := .obj [("kind", .str "Secret")]

/-- A ConfigMap carrying the last-applied-configuration annotation. -/
def cmWithLastApplied : Json :=
  .obj [("apiVersion", .str "v1"), ("kind", .str "ConfigMap"),
        ("metadata", .obj [("name", .str "app-config"),
                           ("namespace", .str "default"),
                           ("resourceVersion", .str "7"),
                           ("uid", .str "u-cm"),
                           ("annotations", .obj [(lastAppliedKey,
                             .str "apiVersion: v1 kind: ConfigMap")])]),
        ("data", .obj [("key", .str "value")])]

/-- A ConfigMap whose metadata carries no resource version. -/
def cmNoRV : Json :=
  .obj [("apiVersion", .str "v1"), ("kind", .str "ConfigMap"),
        ("metadata", .obj [("name", .str "cfg"), ("namespace", .str "default")])]

/-- A pod carrying only a resource version, for version-store streams. -/
def podV (rv : String) : Json :=
  .obj [("apiVersion", .str "v1"), ("kind", .str "Pod"),
        ("metadata", .obj [("name", .str "p"), ("namespace", .str "default"),
                           ("resourceVersion", .str rv)])]

/-- A MODIFIED pod event with the given resource version. -/
def evPod (rv : String) : EvIn :=
  ⟨"MODIFIED", "c1", gvrPods, podV rv, none⟩

/-! ## Association-list lemmas -/

theorem alookup_setEntry_self {α : Type} (l : List (String × α)) (k : String) (v : α) :
    alookup (setEntry l k v) k = some v := by
  induction l with
  | nil => simp [setEntry, alookup]
  | cons hd tl ih =>
    obtain ⟨k', v'⟩ := hd
    by_cases h : k' = k
    · simp [setEntry, h, alookup]
    · simp [setEntry, h, alookup, ih]

theorem alookup_setEntry_ne {α : Type} (l : List (String × α)) (k k' : String) (v : α)
    (h : k ≠ k') :
    alookup (setEntry l k v) k' = alookup l k' := by
  induction l with
  | nil => simp [setEntry, alookup, h]
  | cons hd tl ih =>
    obtain ⟨a, b⟩ := hd
    by_cases ha : a = k
    · subst ha
      simp [setEntry, alookup, h]
    · simp [setEntry, ha, alookup, ih]

/-- Effect of `setResourceVersion` on `getResourceVersion`. -/
theorem rvsGet_rvsSet (d : RVSData) (c g v c' g' : String) :
    rvsGet (rvsSet d c g v) c' g' = if c = c' ∧ g = g' then v else rvsGet d c' g' := by
  by_cases hc : c = c'
  · subst hc
    by_cases hg : g = g'
    · subst hg
      simp [rvsGet, rvsSet, alookup_setEntry_self]
    · simp only [rvsGet, rvsSet, alookup_setEntry_self,
        alookup_setEntry_ne _ _ _ _ hg]
      cases h : alookup d c <;> simp [hg, h, alookup]
  · simp only [rvsGet, rvsSet, alookup_setEntry_ne _ _ _ _ hc]
    simp [hc]

/-! ## `sjson.Set` lemmas -/

theorem getPath_mkChain (segs : List String) (v : Json) :
    (mkChain segs v).getPath segs = some v := by
  induction segs with
  | nil => rfl
  | cons k rest ih => simp [mkChain, Json.getPath, Json.getField, alookup, ih]

/-- Unfolding lemma for `Json.getPath` at an object. -/
theorem getPath_obj_cons (fs : List (String × Json)) (k : String) (rest : List String) :
    Json.getPath (.obj fs) (k :: rest) =
      match alookup fs k with
      | some v => v.getPath rest
      | none => none := rfl

/-- When the walk meets no array, `sjson.Set` succeeds and the path holds
the new value in the result. -/
theorem sjsonSet_getPath (segs : List String) (j v : Json)
    (h : noArrayObstacle segs j = true) :
    ∃ r, sjsonSet segs j v = some r ∧ r.getPath segs = some v := by
  induction segs generalizing j with
  | nil => exact ⟨v, rfl, rfl⟩
  | cons k rest ih =>
    cases j with
    | arr elems => simp [noArrayObstacle] at h
    | obj fs =>
      cases halk : alookup fs k with
      | none =>
        refine ⟨.obj (setEntry fs k (mkChain rest v)), ?_, ?_⟩
        · simp [sjsonSet, halk]
        · rw [getPath_obj_cons, alookup_setEntry_self]
          exact getPath_mkChain rest v
      | some w =>
        have hw : noArrayObstacle rest w = true := by
          simpa [noArrayObstacle, halk] using h
        cases rest with
        | nil =>
          refine ⟨.obj (setEntry fs k v), ?_, ?_⟩
          · simp [sjsonSet, halk]
          · rw [getPath_obj_cons, alookup_setEntry_self]
            rfl
        | cons r rs =>
          obtain ⟨w', hset, hpath⟩ := ih w hw
          refine ⟨.obj (setEntry fs k w'), ?_, ?_⟩
          · simp [sjsonSet, halk, hset]
          · rw [getPath_obj_cons, alookup_setEntry_self]
            exact hpath
    | null => exact ⟨mkChain (k :: rest) v, rfl, getPath_mkChain _ _⟩
    | bool b => exact ⟨mkChain (k :: rest) v, rfl, getPath_mkChain _ _⟩
    | num n => exact ⟨mkChain (k :: rest) v, rfl, getPath_mkChain _ _⟩
    | str s => exact ⟨mkChain (k :: rest) v, rfl, getPath_mkChain _ _⟩

/-- When the walk meets an array, `sjson.Set` returns an error. -/
theorem sjsonSet_obstacle (segs : List String) (j v : Json)
    (h : noArrayObstacle segs j = false) :
    sjsonSet segs j v = none := by
  induction segs generalizing j with
  | nil => simp [noArrayObstacle] at h
  | cons k rest ih =>
    cases j with
    | arr elems => rfl
    | obj fs =>
      cases halk : alookup fs k with
      | none => simp [noArrayObstacle, halk] at h
      | some w =>
        have hw : noArrayObstacle rest w = false := by
          simpa [noArrayObstacle, halk] using h
        cases rest with
        | nil => simp [noArrayObstacle] at hw
        | cons r rs => simp [sjsonSet, halk, ih w hw]
    | null => simp [noArrayObstacle] at h
    | bool b => simp [noArrayObstacle] at h
    | num n => simp [noArrayObstacle] at h
    | str s => simp [noArrayObstacle] at h

/-! ## Claims -/

/-- Claim C1: the code violates the claim.  For a MODIFIED event on a
policy-sensitive kind, `handleEvent` redacts only the current object; the
prior object is placed on the event verbatim, so the handler receives the
old Secret with its pre-redaction `data.password` value intact (while the
current object is redacted). -/
theorem handleEvent_modified_old_object_unredacted :
    (handleEvent DefaultSensitiveConfig [] "MODIFIED" "c1" gvrSecrets secretNew
        (some secretOld)).event.oldObject = some secretOld
    ∧ Json.getPath secretOld ["data", "password"] = some (.str "b2xkcGFzcw==")
    ∧ "b2xkcGFzcw==" ≠ "<redacted>"
    ∧ Json.getPath (handleEvent DefaultSensitiveConfig [] "MODIFIED" "c1" gvrSecrets
        secretNew (some secretOld)).event.object ["data"] = some redactedLit :=
  ⟨rfl, rfl, by decide, rfl⟩

/-- Claim C2: the code violates the claim.  `redactArrayFieldPath`'s
prefix walk type-asserts every segment of the prefix — including the one
naming the array — to a `map[string]any`, so a prefix that actually leads
to an array returns early and nothing is redacted: with `spec.containers`
an array of objects, both the suffixed and the suffix-free `[*]` path
leave the object untouched. -/
theorem redactFieldPath_wildcard_no_op :
    redactFieldPath podWithContainers "spec.containers[*].env" = podWithContainers
    ∧ redactFieldPath podWithContainers "spec.containers[*]" = podWithContainers :=
  ⟨rfl, rfl⟩

/-- Claim C3, counterexample to the missing-segment clause: on an object
with no `data` field, redacting `data.password` *creates* the nested path
and sets it to `<redacted>` (`sjson.Set` creates missing paths), so the
result is not unchanged with respect to that path. -/
theorem redactFieldPath_missing_path_created :
    Json.getPath (redactFieldPath bareSecret "data.password") ["data", "password"]
      = some redactedLit
    ∧ Json.getPath bareSecret ["data", "password"] = none :=
  ⟨rfl, rfl⟩

/-- Claim C3 (amended): for a plain dotted path on an object, redaction
never throws (the model is a total function); whenever the walk meets no
array — in particular whenever the terminal segment exists — the path in
the result holds the literal `<redacted>` (created if it was absent);
when an array blocks the walk, the object is returned unchanged for that
path. -/
theorem redactFieldPath_plain_correct (fs : List (String × Json)) (path : String)
    (_hplain : (strSplitOn path ".").all plainSeg = true)
    (hnw : strContains path "[*]" = false) :
    (noArrayObstacle (strSplitOn path ".") (.obj fs) = true →
      (redactFieldPath (.obj fs) path).getPath (strSplitOn path ".") = some redactedLit)
    ∧ (noArrayObstacle (strSplitOn path ".") (.obj fs) = false →
      redactFieldPath (.obj fs) path = .obj fs) := by
  constructor
  · intro h
    obtain ⟨r, hset, hpath⟩ := sjsonSet_getPath _ _ redactedLit h
    simp [redactFieldPath, hnw, redactFieldPathPlain, hset, hpath]
  · intro h
    simp [redactFieldPath, hnw, redactFieldPathPlain, sjsonSet_obstacle _ _ _ h]

/-- Witness for the amended C3 theorem at a concrete Secret. -/
theorem redactFieldPath_plain_correct_witness :
    (redactFieldPath (.obj [("data", .obj [("password", .str "c2VjcmV0")])])
        "data.password").getPath (strSplitOn "data.password" ".") = some redactedLit :=
  (redactFieldPath_plain_correct [("data", .obj [("password", .str "c2VjcmV0")])]
    "data.password" rfl rfl).1 rfl

/-- Claim C4: the code violates the claim.  `StoreResource` deletes the
last-applied annotation from the copy returned by `GetAnnotations`, so
the marshalled row still carries it: storing a ConfigMap that has the
annotation and reading it back under the same identity returns the input
*exactly*, annotation included. -/
theorem storeResource_retains_last_applied :
    getResource
        (cacheUpsert [] (storeResource DefaultSensitiveConfig "c1" gvrConfigmaps
          cmWithLastApplied).1)
        "c1" (gvrString gvrConfigmaps) "default" "app-config"
      = some (cmWithLastApplied, false)
    ∧ Json.getPath cmWithLastApplied ["metadata", "annotations", lastAppliedKey]
      = some (.str "apiVersion: v1 kind: ConfigMap") :=
  ⟨rfl, rfl⟩

/-- Claim C5, counterexample to "greatest, not merely most recent":
`setResourceVersion` overwrites unconditionally, so delivering versions
`"2"` then `"1"` for the same (cluster, GVR) leaves `"1"` in the store,
not the greatest delivered version `"2"`. -/
theorem versionStore_not_greatest :
    rvsGet (processEvents DefaultSensitiveConfig [] [evPod "2", evPod "1"])
        "c1" (gvrString gvrPods) = "1"
    ∧ getStringAt (evPod "2").obj ["metadata", "resourceVersion"] = "2"
    ∧ getStringAt (evPod "1").obj ["metadata", "resourceVersion"] = "1"
    ∧ ("1" : String) ≠ "2" :=
  ⟨rfl, rfl, rfl, by decide⟩

/-- Claim C5 (amended): after any finite event stream, the store entry
for (cluster, GVR) is the resource version of the *most recent* event for
that key whose object carries a non-empty resource version, falling back
to the prior entry when there is none. -/
theorem versionStore_tracks_last_version (cfg : SensitiveResources)
    (events : List EvIn) (st : RVSData) (c g : String) :
    rvsGet (processEvents cfg st events) c g = (lastRV events c g).getD (rvsGet st c g) := by
  induction events generalizing st with
  | nil => rfl
  | cons e es ih =>
    have hstep : processEvents cfg st (e :: es) = processEvents cfg (evStep cfg st e) es := rfl
    rw [hstep, ih]
    cases hl : lastRV es c g with
    | some v => simp [lastRV, hl]
    | none =>
      simp only [lastRV, hl]
      by_cases hrv : getStringAt e.obj ["metadata", "resourceVersion"] = ""
      · simp [evStep, handleEvent, hrv]
      · by_cases hc : e.clusterId = c
        · by_cases hg : gvrString e.gvr = g
          · simp [evStep, handleEvent, hrv, rvsGet_rvsSet, hc, hg]
          · simp [evStep, handleEvent, hrv, rvsGet_rvsSet, hc, hg]
        · simp [evStep, handleEvent, hrv, rvsGet_rvsSet, hc]

/-- Claim C6: on a cache hit for a policy-sensitive kind whose row was
produced by `StoreResource`, `GetResourceWithSensitivityInfo` returns the
redacted twin together with `is_sensitive = true`; `GetOriginalResource`
never consults the cache — it looks the cluster up and returns the API
server's response. -/
theorem getWithSensitivity_cache_hit_redacted (cfg : SensitiveResources)
    (table₀ : List StoreRow) (clusters : List String) (api : Option Json)
    (clusterId : String) (gvr : GVR) (ns name : String) (r : Json)
    (hsens : isSensitiveResource cfg gvr r = true)
    (hns : getStringAt r ["metadata", "namespace"] = ns)
    (hname : getStringAt r ["metadata", "name"] = name) :
    getResourceWithSensitivityInfo cfg
        (cacheUpsert table₀ (storeResource cfg clusterId gvr r).1)
        clusters api clusterId gvr ns name
      = some (redactSensitiveFields cfg r, true)
    ∧ getOriginalResource (clusterId :: clusters) api clusterId = api := by
  constructor
  · subst hns
    subst hname
    simp [getResourceWithSensitivityInfo, getResource, cacheUpsert, storeResource,
      hsens, List.find?]
  · simp [getOriginalResource]

/-- Witness for C6 at a concrete Secret stored in an empty cache. -/
theorem getWithSensitivity_cache_hit_redacted_witness :
    getResourceWithSensitivityInfo DefaultSensitiveConfig
        (cacheUpsert [] (storeResource DefaultSensitiveConfig "c1" gvrSecrets secretOld).1)
        [] (some secretOld) "c1" gvrSecrets "default" "db-credentials"
      = some (redactSensitiveFields DefaultSensitiveConfig secretOld, true)
    ∧ getOriginalResource ("c1" :: []) (some secretOld) "c1" = some secretOld :=
  getWithSensitivity_cache_hit_redacted DefaultSensitiveConfig [] [] (some secretOld)
    "c1" gvrSecrets "default" "db-credentials" secretOld rfl rfl rfl

/-- Claim C7: when the pre-flight List fails, `AddResourceWatcher` leaves
the cluster's informer map untouched and sets its status to `"error"`;
a 401/Unauthorized failure is returned wrapped in a message containing
`"unauthorized"` with `lastError` describing the denial, and any other
failure is returned as-is. -/
theorem addResourceWatcher_preflight_failure (m : List (String × ClusterState))
    (clusterId : String) (gvr : GVR) (errMsg : String) (st : ClusterState)
    (hc : alookup m clusterId = some st)
    (hnw : gvrString gvr ∉ st.informers) :
    ((strContains errMsg "401" || strContains errMsg "Unauthorized") = true →
      (addResourceWatcher m clusterId gvr (some errMsg)).2 =
        .error ("unauthorized access to " ++ gvrString gvr ++ " in cluster " ++
          clusterId ++ ": " ++ errMsg)
      ∧ strContains ("unauthorized access to " ++ gvrString gvr ++ " in cluster " ++
          clusterId ++ ": " ++ errMsg) "unauthorized" = true
      ∧ alookup (addResourceWatcher m clusterId gvr (some errMsg)).1 clusterId =
        some ⟨st.informers, "error",
          "Unauthorized access to " ++ gvrString gvr ++ ": " ++ errMsg⟩)
    ∧ ((strContains errMsg "401" || strContains errMsg "Unauthorized") = false →
      (addResourceWatcher m clusterId gvr (some errMsg)).2 = .error errMsg
      ∧ alookup (addResourceWatcher m clusterId gvr (some errMsg)).1 clusterId =
        some ⟨st.informers, "error",
          "Failed to access " ++ gvrString gvr ++ ": " ++ errMsg⟩) := by
  constructor
  · intro h
    refine ⟨?_, rfl, ?_⟩
    · simp [addResourceWatcher, hc, hnw, h]
    · simp [addResourceWatcher, hc, hnw, h, alookup_setEntry_self]
  · intro h
    constructor
    · simp [addResourceWatcher, hc, hnw, h]
    · simp [addResourceWatcher, hc, hnw, h, alookup_setEntry_self]

/-- Witness for C7: a single-cluster manager, a 401 pre-flight failure. -/
theorem addResourceWatcher_preflight_failure_witness :
    (addResourceWatcher [("c1", ⟨[], "connected", ""⟩)] "c1" ⟨"custom", "v1", "things"⟩
        (some "the server reported 401 Unauthorized")).2 =
      .error ("unauthorized access to " ++ gvrString ⟨"custom", "v1", "things"⟩ ++
        " in cluster " ++ "c1" ++ ": " ++ "the server reported 401 Unauthorized")
    ∧ strContains ("unauthorized access to " ++ gvrString ⟨"custom", "v1", "things"⟩ ++
        " in cluster " ++ "c1" ++ ": " ++ "the server reported 401 Unauthorized")
        "unauthorized" = true
    ∧ alookup (addResourceWatcher [("c1", ⟨[], "connected", ""⟩)] "c1"
        ⟨"custom", "v1", "things"⟩ (some "the server reported 401 Unauthorized")).1 "c1" =
      some ⟨[], "error",
        "Unauthorized access to " ++ gvrString ⟨"custom", "v1", "things"⟩ ++
          ": " ++ "the server reported 401 Unauthorized"⟩ :=
  (addResourceWatcher_preflight_failure [("c1", ⟨[], "connected", ""⟩)] "c1"
    ⟨"custom", "v1", "things"⟩ "the server reported 401 Unauthorized"
    ⟨[], "connected", ""⟩ rfl (by simp)).1 rfl

/-- Claim C8: `load()` yields an empty store when the backing file is
missing, unreadable, or fails JSON syntax validation; construction (the
model of `NewInformerManager`) is total, and every subsequent lookup
returns `""` as if nothing had been recorded. -/
theorem resourceVersionStore_load_failure_empty (f : FileRead)
    (h : f = .missing ∨ f = .unreadable ∨ f = .content none) :
    newInformerManagerStore f = []
    ∧ ∀ c g, rvsGet (newInformerManagerStore f) c g = "" := by
  rcases h with h | h | h <;> subst h <;> exact ⟨rfl, fun c g => rfl⟩

/-- Witness for C8 at a file whose bytes fail to parse as JSON. -/
theorem resourceVersionStore_load_failure_empty_witness :
    newInformerManagerStore (.content none) = []
    ∧ rvsGet (newInformerManagerStore (.content none)) "c1" (gvrString gvrPods) = "" :=
  ⟨(resourceVersionStore_load_failure_empty (.content none) (Or.inr (Or.inr rfl))).1,
   (resourceVersionStore_load_failure_empty (.content none) (Or.inr (Or.inr rfl))).2
     "c1" (gvrString gvrPods)⟩

/-- Claim C9: `StoreResource` (and the redaction it invokes) leaves the
caller's object unchanged — redaction runs on a deep copy and the
annotation delete hits only the copy returned by `GetAnnotations` — so
after the call the caller still sees the last-applied annotation and all
sensitive values. -/
theorem storeResource_preserves_caller_object (cfg : SensitiveResources)
    (clusterId : String) (gvr : GVR) (resource : Json) :
    (storeResource cfg clusterId gvr resource).2 = resource
    ∧ Json.getPath (storeResource cfg clusterId gvr resource).2
        ["metadata", "annotations", lastAppliedKey]
      = Json.getPath resource ["metadata", "annotations", lastAppliedKey] :=
  ⟨rfl, rfl⟩

/-- Claim C10: when the object carries an empty resource version,
`handleEvent` leaves the version store untouched and hands nothing to the
cache, yet still constructs the `Event` record (redacting the current
object when sensitive) for the registered handler. -/
theorem handleEvent_empty_resource_version_frame (cfg : SensitiveResources)
    (store : RVSData) (eventType clusterId : String) (gvr : GVR) (obj : Json)
    (oldObj : Option Json)
    (h : getStringAt obj ["metadata", "resourceVersion"] = "") :
    (handleEvent cfg store eventType clusterId gvr obj oldObj).store = store
    ∧ (handleEvent cfg store eventType clusterId gvr obj oldObj).cacheWrite = none
    ∧ (handleEvent cfg store eventType clusterId gvr obj oldObj).event =
      ⟨eventType, clusterId, gvr,
        getStringAt obj ["metadata", "namespace"],
        getStringAt obj ["metadata", "name"],
        (if isSensitiveResource cfg gvr obj then redactSensitiveFields cfg obj else obj),
        oldObj⟩ := by
  refine ⟨?_, ?_, rfl⟩ <;> simp [handleEvent, h]

/-- Witness for C10 at a ConfigMap without a resource version. -/
theorem handleEvent_empty_resource_version_frame_witness :
    (handleEvent DefaultSensitiveConfig [] "ADDED" "c1" gvrConfigmaps cmNoRV none).store = []
    ∧ (handleEvent DefaultSensitiveConfig [] "ADDED" "c1" gvrConfigmaps cmNoRV none).cacheWrite
      = none
    ∧ (handleEvent DefaultSensitiveConfig [] "ADDED" "c1" gvrConfigmaps cmNoRV none).event =
      ⟨"ADDED", "c1", gvrConfigmaps,
        getStringAt cmNoRV ["metadata", "namespace"],
        getStringAt cmNoRV ["metadata", "name"],
        (if isSensitiveResource DefaultSensitiveConfig gvrConfigmaps cmNoRV then
          redactSensitiveFields DefaultSensitiveConfig cmNoRV else cmNoRV),
        none⟩ :=
  handleEvent_empty_resource_version_frame DefaultSensitiveConfig [] "ADDED" "c1"
    gvrConfigmaps cmNoRV none rfl

end KSight
